import Mathlib

/-!
Shallow embedding of the enterprise API views
(`src/enterprise/api/v1/views.py`) of the edx-enterprise repository.

The embedding models the view-level business logic: the bulk-enrollment
orchestration of `EnterpriseCustomerViewSet.enroll_learners_in_courses`,
the enrollment-termination state machine and revocation loops of
`LicensedEnterpriseCourseEnrollmentViewSet`, the subsidy-fulfillment
queryset/retrieve/cancel operations of `EnterpriseSubsidyFulfillmentViewSet`,
and the report-type filtering helper of `EnterpriseCustomerReportTypesView`.

External collaborators that live outside the provided sources
(platform enrollment API, certificate API, user/link helpers) are modelled
as explicit function-valued parameters; database rows are modelled as
explicit lists of records.  Machine-level concerns (HTTP transport,
serializers, permission decorators, logging) are elided: no claim is about
them.  Python exceptions are modelled with `Except`/`Option`: an uncaught
exception that aborts a request is `Option.none`, a caught typed exception
is an `Except.error` value.
-/

/-! ### Termination state machine: types -/

/-- Progress statuses, from `CourseRunProgressStatuses` referenced by
`_has_user_completed_course_run`.  Modelled from the spec: the progress
status collaborator classifies a run as completed, in progress or
upcoming. -/
inductive CourseRunProgressStatus
  | completed
  | inProgress
  | upcoming
  deriving DecidableEq, Repr

/-- Certificate info dictionary returned by `get_certificate_for_user`
(an external collaborator); `{}` is the empty list. -/
def CertificateInfo : Type := List (String × String)

/-- The empty certificate dictionary used by `certificate_info = ... or {}`. -/
def emptyCertificateInfo : CertificateInfo := []

/-- A course overview dictionary; only its `id` key is read by the code
under study (`course_overview.get('id')`). -/
structure CourseOverview where
  id : String
  deriving DecidableEq, Repr

/-- An enterprise course enrollment row, with the fields the termination
logic reads: the customer user's username and user id, the course id, the
owning enterprise uuid, and the license uuid reachable through the
`.license` back-reference used by the revocation callers. -/
structure EnterpriseEnrollment where
  username : String
  userId : Nat
  courseId : String
  enterpriseUuid : String
  licenseUuid : String
  deriving DecidableEq, Repr

/-- One call issued to the external platform enrollment API
(`enrollment_api.update_enrollment`): positional username and course id,
optional `mode` and `is_active` keyword payloads. -/
structure UpdateCall where
  username : String
  courseId : String
  mode : Option String
  isActive : Option Bool
  deriving DecidableEq, Repr

/-- The typed error raised when the external enrollment update fails
(`EnrollmentModificationException`). -/
structure EnrollmentModificationException where
  msg : String
  deriving DecidableEq, Repr

/-- The termination statuses of
`LicensedEnterpriseCourseEnrollmentViewSet.EnrollmentTerminationStatus`. -/
inductive TermStatus
  | courseCompleted
  | movedToAudit
  | unenrolled
  deriving DecidableEq, Repr

/-- The client-facing message strings of `EnrollmentTerminationStatus`. -/
def termStatusMessage : TermStatus → String
  | TermStatus.courseCompleted => "course already completed"
  | TermStatus.movedToAudit => "moved to audit"
  | TermStatus.unenrolled => "unenrolled"

/-- The external collaborators consumed by the termination logic.
`getCertificateForUser` and `getCourseRunStatus` are platform lookups,
`modeForCourse` is `CourseMode.mode_for_course` (truthiness of the result),
`updateEnrollment` is the platform enrollment-update API, which either
succeeds or raises with a reason string. -/
structure Collaborators where
  getCertificateForUser : String → String → Option CertificateInfo
  getCourseRunStatus : CourseOverview → CertificateInfo → EnterpriseEnrollment → CourseRunProgressStatus
  modeForCourse : String → String → Bool
  updateEnrollment : UpdateCall → Except String Unit

/-- `CourseMode.AUDIT`. -/
def auditMode : String := "audit"

/-! ### Termination state machine: operations -/

/-- `LicensedEnterpriseCourseEnrollmentViewSet._has_user_completed_course_run`:
the user completed the run iff the progress-status collaborator, fed the
certificate info (or the empty dict), answers COMPLETED. -/
def hasUserCompletedCourseRun (c : Collaborators) (e : EnterpriseEnrollment)
    (ov : CourseOverview) : Bool :=
  let certificateInfo :=
    (c.getCertificateForUser e.username ov.id).getD emptyCertificateInfo
  c.getCourseRunStatus ov certificateInfo e == CourseRunProgressStatus.completed

/-- The enrollment-update call issued by the audit-downgrade branch. -/
def auditCall (e : EnterpriseEnrollment) (ov : CourseOverview) : UpdateCall :=
  { username := e.username, courseId := ov.id, mode := some auditMode, isActive := none }

/-- The enrollment-update call issued by the deactivation branch. -/
def deactivateCall (e : EnterpriseEnrollment) (ov : CourseOverview) : UpdateCall :=
  { username := e.username, courseId := ov.id, mode := none, isActive := some false }

/-- The wrapped message raised when the audit downgrade fails. -/
def auditFailureMessage (e : EnterpriseEnrollment) (ov : CourseOverview)
    (reason : String) : String :=
  "Enrollment termination: unable to update LMS enrollment for User " ++ e.username ++
    " and Enterprise " ++ e.enterpriseUuid ++ " in Course " ++ ov.id ++
    " to Course Mode " ++ auditMode ++ " because: " ++ reason

/-- The wrapped message raised when the deactivation fails. -/
def unenrollFailureMessage (e : EnterpriseEnrollment) (ov : CourseOverview)
    (reason : String) : String :=
  "Enrollment termination: unable to unenroll User " ++ e.username ++
    " in Enterprise " ++ e.enterpriseUuid ++ " from Course " ++ ov.id ++
    "  because: " ++ reason

/-- `LicensedEnterpriseCourseEnrollmentViewSet._terminate_enrollment`.
Returns the termination outcome (or the typed exception) together with the
list of external enrollment-update calls issued, in order. -/
def terminateEnrollment (c : Collaborators) (e : EnterpriseEnrollment)
    (ov : CourseOverview) :
    Except EnrollmentModificationException TermStatus × List UpdateCall :=
  if hasUserCompletedCourseRun c e ov then
    (Except.ok TermStatus.courseCompleted, [])
  else if c.modeForCourse ov.id auditMode then
    let call := auditCall e ov
    match c.updateEnrollment call with
    | Except.ok _ => (Except.ok TermStatus.movedToAudit, [call])
    | Except.error reason =>
        (Except.error ⟨auditFailureMessage e ov reason⟩, [call])
  else
    let call := deactivateCall e ov
    match c.updateEnrollment call with
    | Except.ok _ => (Except.ok TermStatus.unenrolled, [call])
    | Except.error reason =>
        (Except.error ⟨unenrollFailureMessage e ov reason⟩, [call])

/-! ### Claim C2 -/

/-- C2: for every (enterprise enrollment, course overview) pair, termination
evaluates its rules in order: a completed run yields COURSE_COMPLETED with
no external enrollment-update call; otherwise, when the course offers an
audit mode and the external update succeeds, exactly one call with
mode=audit is issued and the outcome is MOVED_TO_AUDIT; otherwise, when the
external update succeeds, exactly one call with is_active=False is issued
and the outcome is UNENROLLED. -/
theorem terminate_enrollment_state_machine (c : Collaborators)
    (e : EnterpriseEnrollment) (ov : CourseOverview) :
    (hasUserCompletedCourseRun c e ov = true →
      terminateEnrollment c e ov = (Except.ok TermStatus.courseCompleted, [])) ∧
    (hasUserCompletedCourseRun c e ov = false →
      c.modeForCourse ov.id auditMode = true →
      c.updateEnrollment (auditCall e ov) = Except.ok () →
      terminateEnrollment c e ov =
        (Except.ok TermStatus.movedToAudit, [auditCall e ov])) ∧
    (hasUserCompletedCourseRun c e ov = false →
      c.modeForCourse ov.id auditMode = false →
      c.updateEnrollment (deactivateCall e ov) = Except.ok () →
      terminateEnrollment c e ov =
        (Except.ok TermStatus.unenrolled, [deactivateCall e ov])) := by
  refine ⟨?_, ?_, ?_⟩
  · intro hdone
    simp [terminateEnrollment, hdone]
  · intro hdone haudit hupd
    simp [terminateEnrollment, hdone, haudit, hupd]
  · intro hdone haudit hupd
    simp [terminateEnrollment, hdone, haudit, hupd]

/-- Concrete collaborators for witness scenarios: the learner has not
completed the run, the course has an audit mode, updates succeed. -/
def collabAuditOk : Collaborators :=
  { getCertificateForUser := fun _ _ => none
    getCourseRunStatus := fun _ _ _ => CourseRunProgressStatus.inProgress
    modeForCourse := fun _ _ => true
    updateEnrollment := fun _ => Except.ok () }

/-- A sample enrollment row. -/
def sampleEnrollment : EnterpriseEnrollment :=
  { username := "alice", userId := 7, courseId := "course-v1:edX+DemoX+1"
    enterpriseUuid := "ent-1", licenseUuid := "lic-1" }

/-- A sample course overview. -/
def sampleOverview : CourseOverview := { id := "course-v1:edX+DemoX+1" }

/-- Witness for C2: at the concrete collaborator set where the run is not
complete, the course offers audit, and the update succeeds, the middle case
of the state machine fires. -/
theorem terminate_enrollment_state_machine_witness :
    terminateEnrollment collabAuditOk sampleEnrollment sampleOverview =
      (Except.ok TermStatus.movedToAudit, [auditCall sampleEnrollment sampleOverview]) :=
  (terminate_enrollment_state_machine collabAuditOk sampleEnrollment sampleOverview).2.1
    (by decide) (by decide) rfl

/-! ### License revocation loop (`license_revoke`) -/

/-- One licensed enterprise course enrollment row
(`LicensedEnterpriseCourseEnrollment`): the enterprise course enrollment it
backs, plus its `is_revoked` flag.  The backing license uuid is reached via
the enrollment's `licenseUuid` (the `.license` back-reference). -/
structure LicensedEnrollment where
  enrollment : EnterpriseEnrollment
  isRevoked : Bool
  deriving DecidableEq, Repr

/-- One per-course entry of the `revocation_results` dictionary built by
`license_revoke`. -/
structure RevocationEntry where
  courseId : String
  success : Bool
  message : String
  deriving DecidableEq, Repr

/-- The accumulated effects of the `license_revoke` loop: the per-course
results, the `any_failures` flag, the licenses revoked (in order) and the
external enrollment-update calls issued (in order). -/
structure RevokeState where
  results : List RevocationEntry
  anyFailures : Bool
  revokedLicenses : List String
  updateCalls : List UpdateCall
  deriving DecidableEq, Repr

/-- The state at the top of the `license_revoke` loop. -/
def initRevokeState : RevokeState :=
  { results := [], anyFailures := false, revokedLicenses := [], updateCalls := [] }

/-- One iteration of the `license_revoke` loop: look the enrollment up by
course id, terminate it, record the per-course outcome, and revoke the
backing license exactly when the outcome is not COURSE_COMPLETED.  A missing
enrollment for the course id would crash the request inside
`_terminate_enrollment` (`none`). -/
def licenseRevokeStep (c : Collaborators)
    (byCourse : List (String × EnterpriseEnrollment))
    (st : RevokeState) (ov : CourseOverview) : Option RevokeState :=
  match byCourse.lookup ov.id with
  | none => none
  | some e =>
    let r := terminateEnrollment c e ov
    match r.1 with
    | Except.ok s =>
        some { st with
          results := st.results ++ [⟨ov.id, true, termStatusMessage s⟩]
          revokedLicenses := st.revokedLicenses ++
            (if s = TermStatus.courseCompleted then [] else [e.licenseUuid])
          updateCalls := st.updateCalls ++ r.2 }
    | Except.error ex =>
        some { st with
          results := st.results ++ [⟨ov.id, false, ex.msg⟩]
          anyFailures := true
          updateCalls := st.updateCalls ++ r.2 }

/-- The whole `license_revoke` loop over the course overviews. -/
def licenseRevokeLoop (c : Collaborators)
    (byCourse : List (String × EnterpriseEnrollment))
    (ovs : List CourseOverview) : Option RevokeState :=
  List.foldlM (licenseRevokeStep c byCourse) initRevokeState ovs

/-- The response status of `license_revoke`: 200 unless any failure, else 422. -/
def revokeResponseStatus (st : RevokeState) : Nat :=
  if st.anyFailures then 422 else 200

/-! ### Bulk expiration sweep (`bulk_licensed_enrollments_expiration`) -/

/-- The accumulated effects of the bulk-expiration sweep: the external
enrollment-update calls issued, the licenses revoked, the (user, course)
pairs for which `_terminate_enrollment` was invoked, and the `any_failures`
flag. -/
structure SweepState where
  updateCalls : List UpdateCall
  revokedLicenses : List String
  terminateAttempts : List (Nat × String)
  anyFailures : Bool
  deriving DecidableEq, Repr

/-- The state at the top of the sweep loop. -/
def initSweepState : SweepState :=
  { updateCalls := [], revokedLicenses := [], terminateAttempts := [], anyFailures := false }

/-- The dictionary key `f'{user_id}{course_id}'` used by the sweep and by
`_course_enrollment_modified_at_by_user_and_course_id`. -/
def enrollmentKey (userId : Nat) (courseId : String) : String :=
  toString userId ++ courseId

/-- The tail of one sweep iteration, reached when the enrollment is neither
already revoked nor cutoff-skipped: terminate, record the attempt and the
calls, and revoke the license exactly when the outcome is not
COURSE_COMPLETED; a typed termination error sets `any_failures` and the loop
continues.  A missing course overview would crash the request inside
`_terminate_enrollment` (`none`). -/
def sweepProceed (c : Collaborators) (st : SweepState) (ece : EnterpriseEnrollment)
    (courseOverview : Option CourseOverview) : Option SweepState :=
  match courseOverview with
  | none => none
  | some ov =>
    let r := terminateEnrollment c ece ov
    match r.1 with
    | Except.ok s =>
        some { st with
          updateCalls := st.updateCalls ++ r.2
          terminateAttempts := st.terminateAttempts ++ [(ece.userId, ece.courseId)]
          revokedLicenses := st.revokedLicenses ++
            (if s = TermStatus.courseCompleted then [] else [ece.licenseUuid]) }
    | Except.error _ =>
        some { st with
          updateCalls := st.updateCalls ++ r.2
          terminateAttempts := st.terminateAttempts ++ [(ece.userId, ece.courseId)]
          anyFailures := true }

/-- One iteration of the sweep loop of `bulk_licensed_enrollments_expiration`:
skip enrollments already revoked; with a cutoff, look the last-modified time
up by the concatenated key (a missing key crashes the request) and skip when
it is at or after the cutoff; otherwise proceed to termination. -/
def sweepStep (c : Collaborators) (idx : List (String × CourseOverview))
    (cutoff : Option Nat) (modifiedAt : List (String × Nat))
    (st : SweepState) (le : LicensedEnrollment) : Option SweepState :=
  if le.isRevoked then some st
  else
    match cutoff with
    | some t =>
      match modifiedAt.lookup (enrollmentKey le.enrollment.userId le.enrollment.courseId) with
      | none => none
      | some d =>
        if d ≥ t then some st
        else sweepProceed c st le.enrollment (idx.lookup le.enrollment.courseId)
    | none => sweepProceed c st le.enrollment (idx.lookup le.enrollment.courseId)

/-- The whole sweep loop over the licensed enrollments. -/
def sweepRun (c : Collaborators) (idx : List (String × CourseOverview))
    (cutoff : Option Nat) (modifiedAt : List (String × Nat))
    (enrollments : List LicensedEnrollment) : Option SweepState :=
  List.foldlM (sweepStep c idx cutoff modifiedAt) initSweepState enrollments

/-- The response status of the sweep: 200 unless any failure, else 422. -/
def sweepResponseStatus (st : SweepState) : Nat :=
  if st.anyFailures then 422 else 200

/-- Whether termination of the given enrollment raises the typed
enrollment-modification error. -/
def terminationErrors (c : Collaborators) (e : EnterpriseEnrollment)
    (ov : CourseOverview) : Bool :=
  match (terminateEnrollment c e ov).1 with
  | Except.error _ => true
  | Except.ok _ => false

/-- Whether one sweep item ends in a recorded failure (assuming its lookups
succeed; a failed lookup crashes the whole request instead). -/
def sweepItemFails (c : Collaborators) (idx : List (String × CourseOverview))
    (cutoff : Option Nat) (modifiedAt : List (String × Nat))
    (le : LicensedEnrollment) : Bool :=
  if le.isRevoked then false
  else
    match cutoff with
    | some t =>
      match modifiedAt.lookup (enrollmentKey le.enrollment.userId le.enrollment.courseId) with
      | none => false
      | some d =>
        if d ≥ t then false
        else
          match idx.lookup le.enrollment.courseId with
          | none => false
          | some ov => terminationErrors c le.enrollment ov
    | none =>
      match idx.lookup le.enrollment.courseId with
      | none => false
      | some ov => terminationErrors c le.enrollment ov

/-- Whether one `license_revoke` item ends in a recorded failure. -/
def revokeItemFails (c : Collaborators)
    (byCourse : List (String × EnterpriseEnrollment)) (ov : CourseOverview) : Bool :=
  match byCourse.lookup ov.id with
  | none => false
  | some e => terminationErrors c e ov


/-! ### Loop lemmas -/

/-- `sweepProceed` on a present overview: the failure flag is set exactly
when termination raises. -/
theorem sweepProceed_anyFailures {c : Collaborators} {st : SweepState}
    {ece : EnterpriseEnrollment} {ov : CourseOverview} {st' : SweepState}
    (h : sweepProceed c st ece (some ov) = some st') :
    st'.anyFailures = (st.anyFailures || terminationErrors c ece ov) := by
  unfold terminationErrors
  simp only [sweepProceed] at h
  cases hterm : (terminateEnrollment c ece ov).1 with
  | ok s =>
    rw [hterm] at h
    simp only [Option.some.injEq] at h
    subst h
    simp [hterm]
  | error ex =>
    rw [hterm] at h
    simp only [Option.some.injEq] at h
    subst h
    simp [hterm]

/-- One sweep step records a failure exactly when `sweepItemFails` holds. -/
theorem sweepStep_anyFailures {c : Collaborators} {idx : List (String × CourseOverview)}
    {cutoff : Option Nat} {m : List (String × Nat)} {st : SweepState}
    {le : LicensedEnrollment} {st' : SweepState}
    (h : sweepStep c idx cutoff m st le = some st') :
    st'.anyFailures = (st.anyFailures || sweepItemFails c idx cutoff m le) := by
  unfold sweepStep at h
  unfold sweepItemFails
  cases hrev : le.isRevoked with
  | true =>
    simp [hrev] at h ⊢
    simp [h]
  | false =>
    cases cutoff with
    | none =>
      simp [hrev] at h ⊢
      cases hlk : idx.lookup le.enrollment.courseId with
      | none => rw [hlk] at h; simp [sweepProceed] at h
      | some ov =>
        simp only [hlk] at h ⊢
        exact sweepProceed_anyFailures h
    | some t =>
      simp [hrev] at h ⊢
      cases hlk2 : m.lookup (enrollmentKey le.enrollment.userId le.enrollment.courseId) with
      | none => rw [hlk2] at h; exact Option.noConfusion h
      | some d =>
        simp only [hlk2] at h ⊢
        by_cases hd : d ≥ t
        · simp [hd] at h ⊢
          simp [h]
        · simp [hd] at h ⊢
          cases hlk3 : idx.lookup le.enrollment.courseId with
          | none => rw [hlk3] at h; simp [sweepProceed] at h
          | some ov =>
            simp only [hlk3] at h ⊢
            exact sweepProceed_anyFailures h

/-- Accumulated failure flag of a sweep fold. -/
theorem sweep_foldlM_anyFailures (c : Collaborators) (idx : List (String × CourseOverview))
    (cutoff : Option Nat) (m : List (String × Nat)) :
    ∀ (l : List LicensedEnrollment) (st st' : SweepState),
      List.foldlM (sweepStep c idx cutoff m) st l = some st' →
      st'.anyFailures = (st.anyFailures || l.any (sweepItemFails c idx cutoff m)) := by
  intro l
  induction l with
  | nil =>
    intro st st' h
    simp only [List.foldlM_nil] at h
    simp at h
    simp [h]
  | cons x xs ih =>
    intro st st' h
    rw [List.foldlM_cons] at h
    cases hx : sweepStep c idx cutoff m st x with
    | none => rw [hx] at h; simp at h
    | some st₁ =>
      rw [hx] at h
      simp at h
      have hrec := ih st₁ st' h
      rw [hrec, sweepStep_anyFailures hx]
      simp [List.any_cons, Bool.or_assoc]

/-- `license_revoke` step: appends exactly one per-course entry and records
a failure exactly when `revokeItemFails` holds. -/
theorem licenseRevokeStep_stats {c : Collaborators}
    {byCourse : List (String × EnterpriseEnrollment)} {st : RevokeState}
    {ov : CourseOverview} {st' : RevokeState}
    (h : licenseRevokeStep c byCourse st ov = some st') :
    st'.results.length = st.results.length + 1 ∧
      st'.anyFailures = (st.anyFailures || revokeItemFails c byCourse ov) := by
  unfold licenseRevokeStep at h
  unfold revokeItemFails
  cases hlk : byCourse.lookup ov.id with
  | none => rw [hlk] at h; exact Option.noConfusion h
  | some e =>
    simp only [hlk] at h ⊢
    unfold terminationErrors
    cases hterm : (terminateEnrollment c e ov).1 with
    | ok s =>
      rw [hterm] at h
      simp only [Option.some.injEq] at h
      subst h
      simp [hterm]
    | error ex =>
      rw [hterm] at h
      simp only [Option.some.injEq] at h
      subst h
      simp [hterm]

/-- Accumulated statistics of a `license_revoke` fold. -/
theorem revoke_foldlM_stats (c : Collaborators)
    (byCourse : List (String × EnterpriseEnrollment)) :
    ∀ (ovs : List CourseOverview) (st st' : RevokeState),
      List.foldlM (licenseRevokeStep c byCourse) st ovs = some st' →
      st'.results.length = st.results.length + ovs.length ∧
        st'.anyFailures = (st.anyFailures || ovs.any (revokeItemFails c byCourse)) := by
  intro ovs
  induction ovs with
  | nil =>
    intro st st' h
    simp only [List.foldlM_nil] at h
    simp at h
    simp [h]
  | cons x xs ih =>
    intro st st' h
    rw [List.foldlM_cons] at h
    cases hx : licenseRevokeStep c byCourse st x with
    | none => rw [hx] at h; simp at h
    | some st₁ =>
      rw [hx] at h
      simp at h
      have hrec := ih st₁ st' h
      have hstep := licenseRevokeStep_stats hx
      constructor
      · rw [hrec.1, hstep.1]
        simp [List.length_cons]
        omega
      · rw [hrec.2, hstep.2]
        simp [List.any_cons, Bool.or_assoc]

/-- `sweepProceed` on a present overview: the license is revoked exactly
when the termination outcome is non-exceptional and not COURSE_COMPLETED. -/
theorem sweepProceed_revokedLicenses {c : Collaborators} {st : SweepState}
    {ece : EnterpriseEnrollment} {ov : CourseOverview} {st' : SweepState}
    (h : sweepProceed c st ece (some ov) = some st') :
    st'.revokedLicenses = st.revokedLicenses ++
      (match (terminateEnrollment c ece ov).1 with
       | Except.ok s => if s = TermStatus.courseCompleted then [] else [ece.licenseUuid]
       | Except.error _ => []) := by
  simp only [sweepProceed] at h
  cases hterm : (terminateEnrollment c ece ov).1 with
  | ok s =>
    rw [hterm] at h
    simp only [Option.some.injEq] at h
    subst h
    simp [hterm]
  | error ex =>
    rw [hterm] at h
    simp only [Option.some.injEq] at h
    subst h
    simp [hterm]

/-- `license_revoke` step on a found enrollment: the license is revoked
exactly when the termination outcome is non-exceptional and not
COURSE_COMPLETED. -/
theorem licenseRevokeStep_revokedLicenses {c : Collaborators}
    {byCourse : List (String × EnterpriseEnrollment)} {st : RevokeState}
    {ov : CourseOverview} {st' : RevokeState} {e : EnterpriseEnrollment}
    (hlk : byCourse.lookup ov.id = some e)
    (h : licenseRevokeStep c byCourse st ov = some st') :
    st'.revokedLicenses = st.revokedLicenses ++
      (match (terminateEnrollment c e ov).1 with
       | Except.ok s => if s = TermStatus.courseCompleted then [] else [e.licenseUuid]
       | Except.error _ => []) := by
  simp only [licenseRevokeStep, hlk] at h
  cases hterm : (terminateEnrollment c e ov).1 with
  | ok s =>
    rw [hterm] at h
    simp only [Option.some.injEq] at h
    subst h
    simp [hterm]
  | error ex =>
    rw [hterm] at h
    simp only [Option.some.injEq] at h
    subst h
    simp [hterm]

/-! ### Claim C3 -/

/-- C3: in both the license-revoke operation and the bulk-expiration sweep,
a processed enrollment's backing license is revoked exactly when the
termination outcome is non-exceptional and different from COURSE_COMPLETED:
COURSE_COMPLETED leaves the revocation list unchanged, and a termination
that raises the typed enrollment-modification error revokes nothing. -/
theorem revoke_exactly_on_noncompleted_outcome :
    (∀ (c : Collaborators) (byCourse : List (String × EnterpriseEnrollment))
        (st st' : RevokeState) (ov : CourseOverview) (e : EnterpriseEnrollment),
        byCourse.lookup ov.id = some e →
        licenseRevokeStep c byCourse st ov = some st' →
        st'.revokedLicenses = st.revokedLicenses ++
          (match (terminateEnrollment c e ov).1 with
           | Except.ok s => if s = TermStatus.courseCompleted then [] else [e.licenseUuid]
           | Except.error _ => [])) ∧
    (∀ (c : Collaborators) (idx : List (String × CourseOverview)) (cutoff : Option Nat)
        (m : List (String × Nat)) (st st' : SweepState) (le : LicensedEnrollment)
        (ov : CourseOverview),
        le.isRevoked = false →
        (∀ t, cutoff = some t →
          ∃ d, m.lookup (enrollmentKey le.enrollment.userId le.enrollment.courseId) = some d ∧
            d < t) →
        idx.lookup le.enrollment.courseId = some ov →
        sweepStep c idx cutoff m st le = some st' →
        st'.revokedLicenses = st.revokedLicenses ++
          (match (terminateEnrollment c le.enrollment ov).1 with
           | Except.ok s =>
              if s = TermStatus.courseCompleted then [] else [le.enrollment.licenseUuid]
           | Except.error _ => [])) := by
  constructor
  · intro c byCourse st st' ov e hlk hstep
    exact licenseRevokeStep_revokedLicenses hlk hstep
  · intro c idx cutoff m st st' le ov hrev hcut hov hstep
    unfold sweepStep at hstep
    cases cutoff with
    | none =>
      simp [hrev, hov] at hstep
      exact sweepProceed_revokedLicenses hstep
    | some t =>
      obtain ⟨d, hd, hdt⟩ := hcut t rfl
      simp [hrev, hd] at hstep
      rw [if_neg (by omega)] at hstep
      simp only [hov] at hstep
      exact sweepProceed_revokedLicenses hstep

/-- The concrete post-state of one `license_revoke` iteration in the witness
scenario. -/
def c3WitnessState : RevokeState :=
  { results := [⟨"course-v1:edX+DemoX+1", true, "moved to audit"⟩]
    anyFailures := false
    revokedLicenses := ["lic-1"]
    updateCalls := [auditCall sampleEnrollment sampleOverview] }

/-- Witness for C3: at a concrete one-course scenario whose termination
outcome is MOVED_TO_AUDIT, the step revokes exactly that license. -/
theorem revoke_exactly_on_noncompleted_outcome_witness :
    c3WitnessState.revokedLicenses = initRevokeState.revokedLicenses ++
      (match (terminateEnrollment collabAuditOk sampleEnrollment sampleOverview).1 with
       | Except.ok s => if s = TermStatus.courseCompleted then [] else [sampleEnrollment.licenseUuid]
       | Except.error _ => []) :=
  revoke_exactly_on_noncompleted_outcome.1 collabAuditOk
    [(sampleOverview.id, sampleEnrollment)] initRevokeState c3WitnessState
    sampleOverview sampleEnrollment (by decide) (by decide)

/-! ### Claim C6 -/

/-- C6: neither batch endpoint aborts early on a per-item collaborator
failure.  An external enrollment-update error is wrapped into the typed
enrollment-modification error carrying the wrapped message; the batch folds
compose over list append (later items are still processed); the sweep's
failure flag is exactly "some item failed" and its response is 200 with no
failure and 422 otherwise; the license-revoke loop records one per-course
entry per item, aggregates the same way, and a failing item's entry is
recorded with success=false and the wrapped message while the loop
continues. -/
theorem batch_failures_recorded_and_never_abort :
    (∀ (c : Collaborators) (e : EnterpriseEnrollment) (ov : CourseOverview) (reason : String),
        hasUserCompletedCourseRun c e ov = false →
        ((c.modeForCourse ov.id auditMode = true →
          c.updateEnrollment (auditCall e ov) = Except.error reason →
          terminateEnrollment c e ov =
            (Except.error ⟨auditFailureMessage e ov reason⟩, [auditCall e ov])) ∧
         (c.modeForCourse ov.id auditMode = false →
          c.updateEnrollment (deactivateCall e ov) = Except.error reason →
          terminateEnrollment c e ov =
            (Except.error ⟨unenrollFailureMessage e ov reason⟩, [deactivateCall e ov])))) ∧
    (∀ (c : Collaborators) (idx : List (String × CourseOverview)) (cutoff : Option Nat)
        (m : List (String × Nat)) (st : SweepState) (l₁ l₂ : List LicensedEnrollment),
        List.foldlM (sweepStep c idx cutoff m) st (l₁ ++ l₂) =
          List.foldlM (sweepStep c idx cutoff m) st l₁ >>= fun st₁ =>
            List.foldlM (sweepStep c idx cutoff m) st₁ l₂) ∧
    (∀ (c : Collaborators) (idx : List (String × CourseOverview)) (cutoff : Option Nat)
        (m : List (String × Nat)) (l : List LicensedEnrollment) (st' : SweepState),
        sweepRun c idx cutoff m l = some st' →
        st'.anyFailures = l.any (sweepItemFails c idx cutoff m) ∧
        sweepResponseStatus st' =
          (if l.any (sweepItemFails c idx cutoff m) then 422 else 200)) ∧
    (∀ (c : Collaborators) (byCourse : List (String × EnterpriseEnrollment))
        (ovs : List CourseOverview) (st' : RevokeState),
        licenseRevokeLoop c byCourse ovs = some st' →
        st'.results.length = ovs.length ∧
        st'.anyFailures = ovs.any (revokeItemFails c byCourse) ∧
        revokeResponseStatus st' =
          (if ovs.any (revokeItemFails c byCourse) then 422 else 200)) ∧
    (∀ (c : Collaborators) (byCourse : List (String × EnterpriseEnrollment))
        (st : RevokeState) (ov : CourseOverview) (e : EnterpriseEnrollment)
        (ex : EnrollmentModificationException),
        byCourse.lookup ov.id = some e →
        (terminateEnrollment c e ov).1 = Except.error ex →
        licenseRevokeStep c byCourse st ov =
          some { st with
            results := st.results ++ [⟨ov.id, false, ex.msg⟩]
            anyFailures := true
            updateCalls := st.updateCalls ++ (terminateEnrollment c e ov).2 }) := by
  refine ⟨?_, ?_, ?_, ?_, ?_⟩
  · intro c e ov reason hdone
    constructor
    · intro haudit hupd
      simp [terminateEnrollment, hdone, haudit, hupd]
    · intro haudit hupd
      simp [terminateEnrollment, hdone, haudit, hupd]
  · intro c idx cutoff m st l₁ l₂
    simp [List.foldlM_append]
  · intro c idx cutoff m l st' h
    have hagg := sweep_foldlM_anyFailures c idx cutoff m l initSweepState st' h
    have hinit : initSweepState.anyFailures = false := rfl
    rw [hinit, Bool.false_or] at hagg
    refine ⟨hagg, ?_⟩
    rw [sweepResponseStatus, hagg]
  · intro c byCourse ovs st' h
    have hagg := revoke_foldlM_stats c byCourse ovs initRevokeState st' h
    have hlen : initRevokeState.results.length = 0 := rfl
    have hinit : initRevokeState.anyFailures = false := rfl
    rw [hlen, hinit, Bool.false_or] at hagg
    refine ⟨by omega, hagg.2, ?_⟩
    rw [revokeResponseStatus, hagg.2]
  · intro c byCourse st ov e ex hlk hterm
    simp only [licenseRevokeStep, hlk]
    rw [hterm]

/-- Collaborators whose enrollment update fails for one course and succeeds
for the other; no audit track; run not completed. -/
def collabMixed : Collaborators :=
  { getCertificateForUser := fun _ _ => none
    getCourseRunStatus := fun _ _ _ => CourseRunProgressStatus.inProgress
    modeForCourse := fun _ _ => false
    updateEnrollment := fun call =>
        if call.courseId = "c-fail" then Except.error "boom" else Except.ok () }

/-- A licensed enrollment whose termination will fail. -/
def leFail : LicensedEnrollment :=
  { enrollment := { username := "u1", userId := 1, courseId := "c-fail"
                    enterpriseUuid := "e", licenseUuid := "L1" }
    isRevoked := false }

/-- A licensed enrollment whose termination will succeed. -/
def leOk : LicensedEnrollment :=
  { enrollment := { username := "u2", userId := 2, courseId := "c-ok"
                    enterpriseUuid := "e", licenseUuid := "L2" }
    isRevoked := false }

/-- The overview index for the witness sweep. -/
def sweepIdx : List (String × CourseOverview) :=
  [("c-fail", ⟨"c-fail"⟩), ("c-ok", ⟨"c-ok"⟩)]

/-- The concrete post-state of the witness sweep: the first item failed, the
second was still processed and its license revoked. -/
def c6WitnessState : SweepState :=
  { updateCalls := [deactivateCall leFail.enrollment ⟨"c-fail"⟩,
                    deactivateCall leOk.enrollment ⟨"c-ok"⟩]
    revokedLicenses := ["L2"]
    terminateAttempts := [(1, "c-fail"), (2, "c-ok")]
    anyFailures := true }

/-- Witness for C6: at a concrete two-item sweep whose first item fails, the
aggregate flag records the failure and the response status is 422, while
the second item was processed. -/
theorem batch_failures_recorded_and_never_abort_witness :
    c6WitnessState.anyFailures =
      [leFail, leOk].any (sweepItemFails collabMixed sweepIdx none []) ∧
    sweepResponseStatus c6WitnessState =
      (if [leFail, leOk].any (sweepItemFails collabMixed sweepIdx none []) then 422 else 200) :=
  batch_failures_recorded_and_never_abort.2.2.1 collabMixed sweepIdx none []
    [leFail, leOk] c6WitnessState (by decide)

/-! ### Last-modified map
(`_course_enrollment_modified_at_by_user_and_course_id`) -/

/-- One `CourseEnrollment.history` row, with the fields the helper reads. -/
structure HistoryEntry where
  userId : Nat
  courseId : String
  historyDate : Nat
  deriving DecidableEq, Repr

/-- The descending order on history rows used by `order_by('-history_date')`. -/
def historyDesc (a b : HistoryEntry) : Prop :=
  b.historyDate ≤ a.historyDate

instance : DecidableRel historyDesc :=
  fun a b => Nat.decLe b.historyDate a.historyDate

instance : IsTotal HistoryEntry historyDesc :=
  ⟨fun a b => Nat.le_total b.historyDate a.historyDate⟩

instance : IsTrans HistoryEntry historyDesc :=
  ⟨fun _ _ _ hab hbc => Nat.le_trans hbc hab⟩

/-- One iteration of the dictionary-building loop: keep the first entry seen
per concatenated key (`if key not in result`). -/
def insertFirstOcc (m : List (String × Nat)) (h : HistoryEntry) : List (String × Nat) :=
  if (m.lookup (enrollmentKey h.userId h.courseId)).isSome then m
  else m ++ [(enrollmentKey h.userId h.courseId, h.historyDate)]

/-- `_course_enrollment_modified_at_by_user_and_course_id`: filter histories
to the batch's user ids and course ids, order them by descending history
date, and keep the first (most recent) date per concatenated key. -/
def modifiedAtByUserAndCourse (histories : List HistoryEntry)
    (userIds : List Nat) (courseIds : List String) : List (String × Nat) :=
  let filtered := histories.filter
    (fun h => userIds.contains h.userId && courseIds.contains h.courseId)
  let sorted := List.insertionSort historyDesc filtered
  sorted.foldl insertFirstOcc []

/-- The whole `bulk_licensed_enrollments_expiration` operation after request
validation: build the last-modified map when a cutoff is given, run the
sweep, and pair the final state with the response status. -/
def bulkLicensedEnrollmentsExpiration (c : Collaborators)
    (idx : List (String × CourseOverview)) (cutoff : Option Nat)
    (histories : List HistoryEntry) (enrollments : List LicensedEnrollment) :
    Option (SweepState × Nat) :=
  let modifiedAt :=
    match cutoff with
    | some _ =>
        modifiedAtByUserAndCourse histories
          (enrollments.map (fun le => le.enrollment.userId))
          (enrollments.map (fun le => le.enrollment.courseId))
    | none => []
  (sweepRun c idx cutoff modifiedAt enrollments).map
    (fun st => (st, sweepResponseStatus st))

/-- Lookup in the first-occurrence fold: an existing binding wins, otherwise
the first matching entry of the remaining list is recorded. -/
theorem foldl_insertFirstOcc_lookup (k : String) :
    ∀ (l : List HistoryEntry) (m : List (String × Nat)),
      (l.foldl insertFirstOcc m).lookup k =
        ((m.lookup k).or
          ((l.find? (fun h => enrollmentKey h.userId h.courseId == k)).map
            (fun h => h.historyDate))) := by
  intro l
  induction l with
  | nil =>
    intro m
    simp [Option.or]
    cases m.lookup k <;> simp
  | cons h l ih =>
    intro m
    rw [List.foldl_cons, ih]
    by_cases hk : enrollmentKey h.userId h.courseId = k
    · subst hk
      unfold insertFirstOcc
      cases hm : m.lookup (enrollmentKey h.userId h.courseId) with
      | some d =>
        simp only [hm, Option.isSome_some, if_pos]
        simp [hm, Option.or]
      | none =>
        simp only [hm, Option.isSome_none, Bool.false_eq_true, if_false]
        rw [List.lookup_append, hm]
        simp [Option.or]
    · have hbeq : (enrollmentKey h.userId h.courseId == k) = false := by
        simp [hk]
      unfold insertFirstOcc
      cases hm : m.lookup (enrollmentKey h.userId h.courseId) with
      | some d =>
        simp only [hm, Option.isSome_some, if_pos]
        simp [hbeq]
      | none =>
        simp only [hm, Option.isSome_none, Bool.false_eq_true, if_false]
        rw [List.lookup_append]
        have hne : (k == enrollmentKey h.userId h.courseId) = false :=
          beq_eq_false_iff_ne.mpr fun hkk => hk hkk.symm
        have hsing : List.lookup k [(enrollmentKey h.userId h.courseId, h.historyDate)] = none := by
          simp [List.lookup, hne]
        rw [hsing]
        cases m.lookup k <;> simp [hbeq, Option.or]

/-- The first match in a descending-sorted history list has the greatest
date among all matches. -/
theorem sorted_find?_max {p : HistoryEntry → Bool} :
    ∀ {l : List HistoryEntry}, List.Pairwise historyDesc l →
      ∀ {h : HistoryEntry}, l.find? p = some h →
      ∀ h' ∈ l, p h' = true → h'.historyDate ≤ h.historyDate := by
  intro l
  induction l with
  | nil =>
    intro _ h hf
    simp at hf
  | cons a l ih =>
    intro hp h hf h' hmem hph'
    rcases List.pairwise_cons.mp hp with ⟨ha, hl⟩
    by_cases hpa : p a = true
    · rw [List.find?_cons_of_pos _ hpa] at hf
      injection hf with hf
      subst hf
      rcases List.mem_cons.mp hmem with rfl | hmem'
      · exact Nat.le_refl _
      · exact ha h' hmem'
    · rw [List.find?_cons_of_neg _ hpa] at hf
      rcases List.mem_cons.mp hmem with rfl | hmem'
      · exact absurd hph' hpa
      · exact ih hl hf h' hmem' hph'

/-- Lookup into the last-modified map, expressed through the first match of
the descending-sorted filtered histories. -/
theorem modifiedAt_lookup_eq (histories : List HistoryEntry) (us : List Nat)
    (cs : List String) (k : String) :
    (modifiedAtByUserAndCourse histories us cs).lookup k =
      ((List.insertionSort historyDesc
          (histories.filter (fun x => us.contains x.userId && cs.contains x.courseId))).find?
        (fun x => enrollmentKey x.userId x.courseId == k)).map
          (fun x => x.historyDate) := by
  unfold modifiedAtByUserAndCourse
  rw [foldl_insertFirstOcc_lookup]
  simp [Option.or]

/-- A binding in the last-modified map carries the greatest history date
among the filtered entries sharing its concatenated key, and is realized by
one such entry. -/
theorem modifiedAt_lookup_max {histories : List HistoryEntry} {us : List Nat}
    {cs : List String} {k : String} {d : Nat}
    (h : (modifiedAtByUserAndCourse histories us cs).lookup k = some d) :
    ∃ he, he ∈ histories.filter (fun x => us.contains x.userId && cs.contains x.courseId) ∧
      enrollmentKey he.userId he.courseId = k ∧ he.historyDate = d ∧
      ∀ he' ∈ histories.filter (fun x => us.contains x.userId && cs.contains x.courseId),
        enrollmentKey he'.userId he'.courseId = k → he'.historyDate ≤ d := by
  rw [modifiedAt_lookup_eq] at h
  cases hfind : (List.insertionSort historyDesc
      (histories.filter (fun x => us.contains x.userId && cs.contains x.courseId))).find?
        (fun x => enrollmentKey x.userId x.courseId == k) with
  | none => rw [hfind] at h; simp at h
  | some he =>
    rw [hfind] at h
    simp only [Option.map_some', Option.some.injEq] at h
    have hsorted : List.Pairwise historyDesc (List.insertionSort historyDesc
        (histories.filter (fun x => us.contains x.userId && cs.contains x.courseId))) :=
      List.sorted_insertionSort historyDesc _
    have hperm : List.Perm
        (List.insertionSort historyDesc
          (histories.filter (fun x => us.contains x.userId && cs.contains x.courseId)))
        (histories.filter (fun x => us.contains x.userId && cs.contains x.courseId)) :=
      List.perm_insertionSort historyDesc _
    have hmem : he ∈ histories.filter (fun x => us.contains x.userId && cs.contains x.courseId) :=
      hperm.mem_iff.mp (List.mem_of_find?_eq_some hfind)
    have hkey : enrollmentKey he.userId he.courseId = k := by
      have hb := List.find?_some hfind
      simpa using hb
    refine ⟨he, hmem, hkey, h, ?_⟩
    intro he' hmem' hk'
    have hm' : he' ∈ List.insertionSort historyDesc
        (histories.filter (fun x => us.contains x.userId && cs.contains x.courseId)) :=
      hperm.mem_iff.mpr hmem'
    have hle := sorted_find?_max hsorted hfind he' hm' (by simp [hk'])
    omega

/-- Every filtered history entry induces a binding for its concatenated key. -/
theorem modifiedAt_lookup_isSome {histories : List HistoryEntry} {us : List Nat}
    {cs : List String} {he : HistoryEntry}
    (hmem : he ∈ histories.filter (fun x => us.contains x.userId && cs.contains x.courseId)) :
    ((modifiedAtByUserAndCourse histories us cs).lookup
        (enrollmentKey he.userId he.courseId)).isSome = true := by
  rw [modifiedAt_lookup_eq]
  have hperm : List.Perm
      (List.insertionSort historyDesc
        (histories.filter (fun x => us.contains x.userId && cs.contains x.courseId)))
      (histories.filter (fun x => us.contains x.userId && cs.contains x.courseId)) :=
    List.perm_insertionSort historyDesc _
  have hm : he ∈ List.insertionSort historyDesc
      (histories.filter (fun x => us.contains x.userId && cs.contains x.courseId)) :=
    hperm.mem_iff.mpr hmem
  simp only [Option.isSome_map']
  rw [List.find?_isSome]
  exact ⟨he, hm, by simp⟩

/-! ### Claim C5 -/

/-- C5 (amended): with a cutoff timestamp, every non-revoked licensed
enrollment whose looked-up last-modified time — keyed by the concatenated
string of user id and course id — is at or after the cutoff is skipped: the
sweep state is unchanged, so no termination is attempted, no revoke occurs
and the item contributes to no failure; and the looked-up time for a key is
the greatest history date among the batch-filtered history entries sharing
that concatenated key (realized by one such entry), rather than being
per (user, course) pair. -/
theorem sweep_cutoff_skip_by_concatenated_key :
    (∀ (c : Collaborators) (idx : List (String × CourseOverview)) (t : Nat)
        (m : List (String × Nat)) (st : SweepState) (le : LicensedEnrollment) (d : Nat),
        le.isRevoked = false →
        m.lookup (enrollmentKey le.enrollment.userId le.enrollment.courseId) = some d →
        d ≥ t →
        sweepStep c idx (some t) m st le = some st) ∧
    (∀ (histories : List HistoryEntry) (us : List Nat) (cs : List String)
        (k : String) (d : Nat),
        (modifiedAtByUserAndCourse histories us cs).lookup k = some d →
        ∃ he, he ∈ histories.filter (fun x => us.contains x.userId && cs.contains x.courseId) ∧
          enrollmentKey he.userId he.courseId = k ∧ he.historyDate = d ∧
          ∀ he' ∈ histories.filter (fun x => us.contains x.userId && cs.contains x.courseId),
            enrollmentKey he'.userId he'.courseId = k → he'.historyDate ≤ d) := by
  constructor
  · intro c idx t m st le d hrev hlk hd
    unfold sweepStep
    simp only [hrev, Bool.false_eq_true, if_false, hlk]
    exact if_pos hd
  · intro histories us cs k d h
    exact modifiedAt_lookup_max h

/-- A non-revoked licensed enrollment for user 12 in course "C". -/
def le12C : LicensedEnrollment :=
  { enrollment := { username := "carol", userId := 12, courseId := "C"
                    enterpriseUuid := "e", licenseUuid := "L12" }
    isRevoked := false }

/-- Witness for C5 (amended): at a concrete map binding the key to 100 and
cutoff 50, the enrollment is skipped with the state unchanged. -/
theorem sweep_cutoff_skip_by_concatenated_key_witness :
    sweepStep collabMixed [] (some 50) [("12C", 100)] initSweepState le12C =
      some initSweepState :=
  sweep_cutoff_skip_by_concatenated_key.1 collabMixed [] 50 [("12C", 100)]
    initSweepState le12C 100 (by decide) (by decide) (by decide)

/-- Counterexample to C5 as stated: the last-modified lookup is keyed by the
concatenated string of user id and course id, not by the (user, course)
pair.  With history rows (user 1, course "2C", date 100) and (user 12,
course "C", date 5) — both keys concatenate to "12C" — the map binds the
key of pair (12, "C") to 100, although the most recent history entry for
that pair has date 5; consequently, with cutoff 50 the sweep skips the
enrollment of user 12 in course "C" even though its pair's latest
modification time 5 is strictly before the cutoff. -/
theorem pair_latest_modification_counterexample :
    (modifiedAtByUserAndCourse [⟨1, "2C", 100⟩, ⟨12, "C", 5⟩] [1, 12] ["2C", "C"]).lookup
        (enrollmentKey 12 "C") = some 100 ∧
    (([⟨1, "2C", 100⟩, ⟨12, "C", 5⟩] : List HistoryEntry).filter
        (fun x => x.userId == 12 && x.courseId == "C")).map (fun x => x.historyDate) = [5] ∧
    (100 : Nat) ≠ 5 ∧
    sweepStep collabMixed [] (some 50)
        (modifiedAtByUserAndCourse [⟨1, "2C", 100⟩, ⟨12, "C", 5⟩] [1, 12] ["2C", "C"])
        initSweepState le12C = some initSweepState ∧
    (5 : Nat) < 50 :=
  ⟨by decide, by decide, by decide, by decide, by decide⟩

/-! ### Subsidy fulfillments (`EnterpriseSubsidyFulfillmentViewSet`) -/

/-- The two subsidy fulfillment variants queried by
`get_subsidy_fulfillment_queryset`. -/
inductive SubsidyType
  | learnerCredit
  | licensed
  deriving DecidableEq, Repr

/-- One subsidy fulfillment row: its uuid, variant, the enterprise customer
uuid reachable through its enrollment's (or entitlement's) customer user,
its `is_revoked` flag, and the username/course read by `cancel_enrollment`. -/
structure SubsidyFulfillment where
  uuid : String
  subsidyType : SubsidyType
  customerUuid : Option String
  isRevoked : Bool
  username : String
  courseId : String
  deriving DecidableEq, Repr

/-- The 404 detail raised by `get_subsidy_fulfillment_queryset`. -/
def noEnrollmentFoundDetail : String :=
  "No enrollment found for the given fulfillment source uuid."

/-- `EnterpriseSubsidyFulfillmentViewSet.get_subsidy_fulfillment_queryset`:
learner-credit rows matching the uuid first, then licensed rows; for a
non-staff requester each set is narrowed to the requester's enterprise
customer; when both are empty, the not-found validation error is raised. -/
def getSubsidyFulfillmentQueryset (db : List SubsidyFulfillment) (isStaff : Bool)
    (requesterCustomer : Option String) (fulfillmentSourceUuid : String) :
    Except String (List SubsidyFulfillment) :=
  let learnerCreditEnrollments := db.filter
    (fun f => f.uuid == fulfillmentSourceUuid &&
      f.subsidyType == SubsidyType.learnerCredit)
  let learnerCreditEnrollments :=
    if isStaff then learnerCreditEnrollments
    else learnerCreditEnrollments.filter (fun f => f.customerUuid == requesterCustomer)
  if !learnerCreditEnrollments.isEmpty then Except.ok learnerCreditEnrollments
  else
    let licensedEnrollments := db.filter
      (fun f => f.uuid == fulfillmentSourceUuid && f.subsidyType == SubsidyType.licensed)
    let licensedEnrollments :=
      if isStaff then licensedEnrollments
      else licensedEnrollments.filter (fun f => f.customerUuid == requesterCustomer)
    if !licensedEnrollments.isEmpty then Except.ok licensedEnrollments
    else Except.error noEnrollmentFoundDetail

/-- The HTTP responses distinguished by the fulfillment operations. -/
inductive ApiResponse
  | okData (f : SubsidyFulfillment)
  | okEmpty
  | notFound (detail : String)
  | badRequest (detail : String)
  | forbidden (detail : String)
  | serverError (msg : String)
  deriving DecidableEq, Repr

/-- `EnterpriseSubsidyFulfillmentViewSet.retrieve`: a queryset validation
error becomes a 404 response; otherwise `get_object_or_404` picks the
matching row (an empty queryset would also be a 404) and the serialized row
is returned.  Serialization itself is elided. -/
def retrieveFulfillment (db : List SubsidyFulfillment) (isStaff : Bool)
    (requesterCustomer : Option String) (fulfillmentSourceUuid : String) : ApiResponse :=
  match getSubsidyFulfillmentQueryset db isStaff requesterCustomer fulfillmentSourceUuid with
  | Except.error detail => ApiResponse.notFound detail
  | Except.ok qs =>
    match (qs.filter (fun f => f.uuid == fulfillmentSourceUuid)).head? with
    | none => ApiResponse.notFound "Not found."
    | some f => ApiResponse.okData f

/-- The 500 message built by `cancel_enrollment` on an update failure. -/
def cancelErrorMessage (f : SubsidyFulfillment) (reason : String) : String :=
  "Subsidized enrollment terminations error: unable to unenroll User " ++ f.username ++
    " from Course " ++ f.courseId ++ " because: " ++ reason

/-- `EnterpriseSubsidyFulfillmentViewSet.cancel_enrollment`: resolve the
fulfillment through the same queryset (404 on a validation error); an
already-revoked fulfillment is answered with a 400 before anything else; an
active one triggers one external deactivation call and, on success, the
fulfillment's `revoke()`.  Returns the response, the update calls issued,
and whether `revoke()` ran. -/
def cancelEnrollment (db : List SubsidyFulfillment) (isStaff : Bool)
    (requesterCustomer : Option String) (fulfillmentSourceUuid : String)
    (update : UpdateCall → Except String Unit) :
    ApiResponse × List UpdateCall × Bool :=
  match getSubsidyFulfillmentQueryset db isStaff requesterCustomer fulfillmentSourceUuid with
  | Except.error detail => (ApiResponse.notFound detail, [], false)
  | Except.ok qs =>
    match (qs.filter (fun f => f.uuid == fulfillmentSourceUuid)).head? with
    | none => (ApiResponse.notFound "Not found.", [], false)
    | some f =>
      if f.isRevoked then
        (ApiResponse.badRequest "Enrollment is already canceled.", [], false)
      else
        let call : UpdateCall := { username := f.username, courseId := f.courseId
                                   mode := none, isActive := some false }
        match update call with
        | Except.ok _ => (ApiResponse.okEmpty, [call], true)
        | Except.error reason =>
            (ApiResponse.serverError (cancelErrorMessage f reason), [call], false)

/-- Tenant-mismatched rows are filtered away for a non-staff requester. -/
theorem filter_customer_nil {db : List SubsidyFulfillment} {rc : Option String}
    {u : String} {ty : SubsidyType}
    (hcross : ∀ f ∈ db, f.uuid = u → f.customerUuid ≠ rc) :
    (db.filter (fun f => f.uuid == u && f.subsidyType == ty)).filter
      (fun f => f.customerUuid == rc) = [] := by
  rw [List.filter_eq_nil_iff]
  intro f hf
  rcases List.mem_filter.mp hf with ⟨hdb, hcond⟩
  have hc : f.uuid = u ∧ f.subsidyType = ty := by simpa using hcond
  have hcust := hcross f hdb hc.1
  simp [hcust]

/-- For a non-staff requester, when every row matching the uuid belongs to a
different customer, the queryset raises the not-found validation error. -/
theorem queryset_cross_tenant_error {db : List SubsidyFulfillment}
    {rc : Option String} {u : String}
    (hcross : ∀ f ∈ db, f.uuid = u → f.customerUuid ≠ rc) :
    getSubsidyFulfillmentQueryset db false rc u = Except.error noEnrollmentFoundDetail := by
  simp [getSubsidyFulfillmentQueryset, filter_customer_nil hcross]

/-! ### Claim C9 -/

/-- C9: for every non-staff requester, fetching or cancelling a subsidy
fulfillment every uuid-match of which belongs to a different enterprise
customer yields exactly the not-found response raised for a uuid that does
not exist at all (same detail, never a permission error), so cross-tenant
existence is not leaked. -/
theorem cross_tenant_fulfillment_not_found
    (db : List SubsidyFulfillment) (requesterCustomer : Option String)
    (fulfillmentSourceUuid : String) (update : UpdateCall → Except String Unit)
    (hcross : ∀ f ∈ db, f.uuid = fulfillmentSourceUuid →
      f.customerUuid ≠ requesterCustomer) :
    retrieveFulfillment db false requesterCustomer fulfillmentSourceUuid =
      ApiResponse.notFound noEnrollmentFoundDetail ∧
    cancelEnrollment db false requesterCustomer fulfillmentSourceUuid update =
      (ApiResponse.notFound noEnrollmentFoundDetail, [], false) ∧
    (∀ db' : List SubsidyFulfillment, (∀ g ∈ db', g.uuid ≠ fulfillmentSourceUuid) →
      retrieveFulfillment db' false requesterCustomer fulfillmentSourceUuid =
        retrieveFulfillment db false requesterCustomer fulfillmentSourceUuid ∧
      (cancelEnrollment db' false requesterCustomer fulfillmentSourceUuid update).1 =
        (cancelEnrollment db false requesterCustomer fulfillmentSourceUuid update).1) ∧
    (∀ detail, retrieveFulfillment db false requesterCustomer fulfillmentSourceUuid ≠
      ApiResponse.forbidden detail) := by
  have hq := queryset_cross_tenant_error hcross
  have hret : retrieveFulfillment db false requesterCustomer fulfillmentSourceUuid =
      ApiResponse.notFound noEnrollmentFoundDetail := by
    unfold retrieveFulfillment
    rw [hq]
  have hcan : cancelEnrollment db false requesterCustomer fulfillmentSourceUuid update =
      (ApiResponse.notFound noEnrollmentFoundDetail, [], false) := by
    unfold cancelEnrollment
    rw [hq]
  refine ⟨hret, hcan, ?_, ?_⟩
  · intro db' hnone
    have hcross' : ∀ f ∈ db', f.uuid = fulfillmentSourceUuid →
        f.customerUuid ≠ requesterCustomer := by
      intro f hf hu
      exact absurd hu (hnone f hf)
    have hq' := queryset_cross_tenant_error hcross'
    constructor
    · unfold retrieveFulfillment
      rw [hq, hq']
    · unfold cancelEnrollment
      rw [hq, hq']
  · intro detail
    rw [hret]
    intro hcon
    exact ApiResponse.noConfusion hcon

/-- A fulfillment owned by another enterprise customer. -/
def crossTenantFulfillment : SubsidyFulfillment :=
  { uuid := "f-1", subsidyType := SubsidyType.licensed
    customerUuid := some "other-ent", isRevoked := false
    username := "mallory", courseId := "c1" }

/-- Witness for C9: at a concrete one-row database owned by another
customer, both fetch and cancel answer the same not-found response. -/
theorem cross_tenant_fulfillment_not_found_witness :
    retrieveFulfillment [crossTenantFulfillment] false (some "my-ent") "f-1" =
      ApiResponse.notFound noEnrollmentFoundDetail ∧
    cancelEnrollment [crossTenantFulfillment] false (some "my-ent") "f-1"
        (fun _ => Except.ok ()) =
      (ApiResponse.notFound noEnrollmentFoundDetail, [], false) :=
  ⟨(cross_tenant_fulfillment_not_found [crossTenantFulfillment] (some "my-ent") "f-1"
      (fun _ => Except.ok ()) (by decide)).1,
   (cross_tenant_fulfillment_not_found [crossTenantFulfillment] (some "my-ent") "f-1"
      (fun _ => Except.ok ()) (by decide)).2.1⟩

/-! ### Claim C4 -/

/-- C4: terminating an already-revoked subsidy fulfillment a second time is
a no-op detected before the state machine runs: `cancel_enrollment` answers
the already-canceled 400 with no external enrollment-update call and no
revocation, and the bulk-expiration sweep leaves its state untouched for a
revoked licensed enrollment, invoking no termination, so the revoked state
persists. -/
theorem already_revoked_termination_noop :
    (∀ (db : List SubsidyFulfillment) (isStaff : Bool) (rc : Option String)
        (u : String) (update : UpdateCall → Except String Unit)
        (qs : List SubsidyFulfillment) (f : SubsidyFulfillment),
        getSubsidyFulfillmentQueryset db isStaff rc u = Except.ok qs →
        (qs.filter (fun g => g.uuid == u)).head? = some f →
        f.isRevoked = true →
        cancelEnrollment db isStaff rc u update =
          (ApiResponse.badRequest "Enrollment is already canceled.", [], false)) ∧
    (∀ (c : Collaborators) (idx : List (String × CourseOverview)) (cutoff : Option Nat)
        (m : List (String × Nat)) (st : SweepState) (le : LicensedEnrollment),
        le.isRevoked = true →
        sweepStep c idx cutoff m st le = some st) := by
  constructor
  · intro db isStaff rc u update qs f hq hf hrev
    simp [cancelEnrollment, hq, hf, hrev]
  · intro c idx cutoff m st le hrev
    simp [sweepStep, hrev]

/-- A fulfillment already revoked. -/
def revokedFulfillment : SubsidyFulfillment :=
  { uuid := "f-2", subsidyType := SubsidyType.licensed
    customerUuid := some "my-ent", isRevoked := true
    username := "bob", courseId := "c2" }

/-- A licensed enrollment already revoked. -/
def leRevoked : LicensedEnrollment :=
  { enrollment := { username := "bob", userId := 9, courseId := "c2"
                    enterpriseUuid := "e", licenseUuid := "L9" }
    isRevoked := true }

/-- Witness for C4: at a concrete revoked fulfillment, cancel answers the
already-canceled 400 with no effect, and the sweep skips the revoked
enrollment with its state unchanged. -/
theorem already_revoked_termination_noop_witness :
    cancelEnrollment [revokedFulfillment] true none "f-2" (fun _ => Except.ok ()) =
      (ApiResponse.badRequest "Enrollment is already canceled.", [], false) ∧
    sweepStep collabMixed [] none [] initSweepState leRevoked = some initSweepState :=
  ⟨already_revoked_termination_noop.1 [revokedFulfillment] true none "f-2"
      (fun _ => Except.ok ()) [revokedFulfillment] revokedFulfillment
      rfl (by decide) (by decide),
   already_revoked_termination_noop.2 collabMixed [] none [] initSweepState leRevoked
      (by decide)⟩

/-! ### Bulk enrollment (`EnterpriseCustomerViewSet.enroll_learners_in_courses`) -/

/-- One request dictionary of `enrollments_info`/`licenses_info`: an
optional user id, an optional email (present on email-typed requests, and
filled in on id-typed requests once resolved), the course run key, and the
course mode assigned from the per-course lookup. -/
structure EnrollmentInfo where
  userId : Option Nat
  email : Option String
  courseRunKey : String
  courseMode : Option String
  deriving DecidableEq, Repr

/-- The per-item classification produced by the subsidized-enrollment
collaborator: enrolled, pending activation, or rejected. -/
inductive EnrollOutcomeKind
  | success
  | pending
  | failure
  deriving DecidableEq, Repr

/-- One collaborator classification: the bucket, the `created` flag and the
optional activation link. -/
structure EnrollClassification where
  kind : EnrollOutcomeKind
  created : Bool
  activationLink : Option String
  deriving DecidableEq, Repr

/-- The collaborators of the bulk-enroll flow.  `bestMode` is
`get_best_mode_from_course_key`; `userById` is the platform user lookup
(id to email).  Modelled from the spec: `validEmailToLink` is
`validate_email_to_link` (allowed-domain policy; a failing email raises and
is recorded), `linkUserOk` is `EnterpriseCustomerUser.link_user` (a failure
raises `LinkUserToEnterpriseError`), and `classify` is the per-request
classification of `enroll_subsidy_users_in_courses`. -/
structure BulkOracles where
  bestMode : String → Option String
  userById : Nat → Option String
  validEmailToLink : String → Bool
  linkUserOk : String → Bool
  classify : EnrollmentInfo → EnrollClassification

/-- A returned result item: the request it classifies plus the
collaborator's `created` flag and activation link. -/
structure EnrollResultItem where
  info : EnrollmentInfo
  created : Bool
  activationLink : Option String
  deriving DecidableEq, Repr

/-- The accumulator of the identity-resolution loop: the processed request
list, the invalid user ids, and the distinct-email set in insertion order. -/
structure ResolveAcc where
  infos : List EnrollmentInfo
  userIdErrors : List Nat
  emails : List String
  deriving DecidableEq, Repr

/-- Membership-deduplicating insertion, mirroring `set.add`. -/
def insertEmail (emails : List String) (e : String) : List String :=
  if emails.contains e then emails else emails ++ [e]

/-- One iteration of the resolution loop: assign the memoized course mode;
an id-typed request is resolved to its account email (collecting the id in
`user_id_errors` when no account exists), an email-typed request
contributes its email to the distinct set. -/
def resolveStep (o : BulkOracles) (acc : ResolveAcc) (info : EnrollmentInfo) : ResolveAcc :=
  let info := { info with courseMode := o.bestMode info.courseRunKey }
  match info.userId with
  | some uid =>
    match o.userById uid with
    | some em =>
        { acc with infos := acc.infos ++ [{ info with email := some em }]
                   emails := insertEmail acc.emails em }
    | none =>
        { acc with infos := acc.infos ++ [info]
                   userIdErrors := acc.userIdErrors ++ [uid] }
  | none =>
    match info.email with
    | some em =>
        { acc with infos := acc.infos ++ [info], emails := insertEmail acc.emails em }
    | none => { acc with infos := acc.infos ++ [info] }

/-- The whole resolution loop. -/
def resolveEnrollments (o : BulkOracles) (infos : List EnrollmentInfo) : ResolveAcc :=
  infos.foldl (resolveStep o) ⟨[], [], []⟩

/-- The emails recorded by the validation loop (the email-error bucket as it
stands when the linking loop starts). -/
def bulkValidationErrors (o : BulkOracles) (acc : ResolveAcc) : List String :=
  acc.emails.filter (fun e => !o.validEmailToLink e)

/-- The final email-error bucket: validation failures, then link failures
appended by the second loop. -/
def bulkEmailErrors (o : BulkOracles) (acc : ResolveAcc) : List String :=
  bulkValidationErrors o acc ++ acc.emails.filter (fun e => !o.linkUserOk e)

/-- The removal filter applied to `enrollments_info` before the
subsidized-enrollment call (`info.get('email') not in email_errors and
info.get('user_id') not in user_id_errors`). -/
def keepRequest (userIdErrors : List Nat) (emailErrors : List String)
    (i : EnrollmentInfo) : Bool :=
  (match i.email with
   | some e => !emailErrors.contains e
   | none => true) &&
  (match i.userId with
   | some uid => !userIdErrors.contains uid
   | none => true)

/-- The requests surviving the removal filter. -/
def keptRequests (o : BulkOracles) (acc : ResolveAcc) : List EnrollmentInfo :=
  acc.infos.filter (keepRequest acc.userIdErrors (bulkEmailErrors o acc))

/-- One iteration of the collaborator's per-request classification. -/
def enrollClassifyStep (o : BulkOracles)
    (acc : List EnrollResultItem × List EnrollResultItem × List EnrollResultItem)
    (info : EnrollmentInfo) :
    List EnrollResultItem × List EnrollResultItem × List EnrollResultItem :=
  let cl := o.classify info
  let item : EnrollResultItem := ⟨info, cl.created, cl.activationLink⟩
  match cl.kind with
  | EnrollOutcomeKind.success => (acc.1 ++ [item], acc.2.1, acc.2.2)
  | EnrollOutcomeKind.pending => (acc.1, acc.2.1 ++ [item], acc.2.2)
  | EnrollOutcomeKind.failure => (acc.1, acc.2.1, acc.2.2 ++ [item])

/-- Modelled from the spec: `enroll_subsidy_users_in_courses` classifies
each submitted request into successes, pending and failures, each item
carrying its request. -/
def enrollSubsidyUsersInCourses (o : BulkOracles) (infos : List EnrollmentInfo) :
    List EnrollResultItem × List EnrollResultItem × List EnrollResultItem :=
  infos.foldl (enrollClassifyStep o) ([], [], [])

/-- The result-status policy at the end of `enroll_learners_in_courses`:
409 when any failures or invalid identities exist, else 202 when any
pending remain, else 201. -/
def bulkStatus (failures pending : List EnrollResultItem)
    (userIdErrors : List Nat) (emailErrors : List String) : Nat :=
  if !failures.isEmpty || !emailErrors.isEmpty || !userIdErrors.isEmpty then 409
  else if !pending.isEmpty then 202
  else 201

/-- Everything `enroll_learners_in_courses` produces that the claims are
about: the three result buckets, the error buckets (including the bucket
state at link time), the emails the linking loop was invoked on, the
reported invalid-identity fields, and the response status.  Notification
and tracking side effects are elided: no claim mentions them. -/
structure BulkEnrollOutcome where
  successes : List EnrollResultItem
  pending : List EnrollResultItem
  failures : List EnrollResultItem
  userIdErrors : List Nat
  emailErrors : List String
  validationEmailErrors : List String
  linkCalls : List String
  invalidUserIds : Option (List Nat)
  invalidEmailAddresses : Option (List String)
  status : Nat
  deriving DecidableEq, Repr

/-- `EnterpriseCustomerViewSet.enroll_learners_in_courses` after serializer
validation: resolve identities (collecting invalid ids), validate every
distinct email, link every distinct email (appending link failures to the
same bucket), drop requests whose email or user id is in an error bucket,
classify the rest through the subsidized-enrollment collaborator, report
the invalid identities, and compute the response status. -/
def enrollLearnersInCourses (o : BulkOracles) (enrollmentsInfo : List EnrollmentInfo) :
    BulkEnrollOutcome :=
  let acc := resolveEnrollments o enrollmentsInfo
  let results := enrollSubsidyUsersInCourses o (keptRequests o acc)
  { successes := results.1
    pending := results.2.1
    failures := results.2.2
    userIdErrors := acc.userIdErrors
    emailErrors := bulkEmailErrors o acc
    validationEmailErrors := bulkValidationErrors o acc
    linkCalls := acc.emails
    invalidUserIds := if !acc.userIdErrors.isEmpty then some acc.userIdErrors else none
    invalidEmailAddresses :=
      if !(bulkEmailErrors o acc).isEmpty then some (bulkEmailErrors o acc) else none
    status := bulkStatus results.2.2 results.2.1 acc.userIdErrors (bulkEmailErrors o acc) }

/-- Case analysis of the result-status policy. -/
theorem bulkStatus_cases (F P : List EnrollResultItem) (UE : List Nat) (EE : List String) :
    (F ≠ [] ∨ UE ≠ [] ∨ EE ≠ [] → bulkStatus F P UE EE = 409) ∧
    (F = [] → UE = [] → EE = [] → P ≠ [] → bulkStatus F P UE EE = 202) ∧
    (F = [] → UE = [] → EE = [] → P = [] → bulkStatus F P UE EE = 201) := by
  refine ⟨?_, ?_, ?_⟩
  · intro h
    unfold bulkStatus
    have hc : (!F.isEmpty || !EE.isEmpty || !UE.isEmpty) = true := by
      rcases h with h | h | h
      · cases F with
        | nil => exact absurd rfl h
        | cons a l => simp
      · cases UE with
        | nil => exact absurd rfl h
        | cons a l => simp
      · cases EE with
        | nil => exact absurd rfl h
        | cons a l => simp
    rw [if_pos hc]
  · intro hF hU hE hP
    subst hF; subst hU; subst hE
    unfold bulkStatus
    cases P with
    | nil => exact absurd rfl hP
    | cons a l => simp
  · intro hF hU hE hP
    subst hF; subst hU; subst hE; subst hP
    simp [bulkStatus]

/-! ### Claim C1 -/

/-- C1: the bulk-enroll response status follows the precedence
failures > pending > success: any failures or invalid user ids or invalid
emails give 409 (even when other items succeeded); otherwise any pending
gives 202; otherwise 201. -/
theorem bulk_enroll_status_precedence (o : BulkOracles) (infos : List EnrollmentInfo) :
    ((enrollLearnersInCourses o infos).failures ≠ [] ∨
     (enrollLearnersInCourses o infos).userIdErrors ≠ [] ∨
     (enrollLearnersInCourses o infos).emailErrors ≠ [] →
     (enrollLearnersInCourses o infos).status = 409) ∧
    ((enrollLearnersInCourses o infos).failures = [] →
     (enrollLearnersInCourses o infos).userIdErrors = [] →
     (enrollLearnersInCourses o infos).emailErrors = [] →
     (enrollLearnersInCourses o infos).pending ≠ [] →
     (enrollLearnersInCourses o infos).status = 202) ∧
    ((enrollLearnersInCourses o infos).failures = [] →
     (enrollLearnersInCourses o infos).userIdErrors = [] →
     (enrollLearnersInCourses o infos).emailErrors = [] →
     (enrollLearnersInCourses o infos).pending = [] →
     (enrollLearnersInCourses o infos).status = 201) := by
  have hs : (enrollLearnersInCourses o infos).status =
      bulkStatus (enrollLearnersInCourses o infos).failures
        (enrollLearnersInCourses o infos).pending
        (enrollLearnersInCourses o infos).userIdErrors
        (enrollLearnersInCourses o infos).emailErrors := rfl
  have h := bulkStatus_cases (enrollLearnersInCourses o infos).failures
    (enrollLearnersInCourses o infos).pending
    (enrollLearnersInCourses o infos).userIdErrors
    (enrollLearnersInCourses o infos).emailErrors
  exact ⟨fun hh => hs.trans (h.1 hh),
         fun a b c d => hs.trans (h.2.1 a b c d),
         fun a b c d => hs.trans (h.2.2 a b c d)⟩

/-- Oracles for an all-success batch. -/
def bulkOracleAllOk : BulkOracles :=
  { bestMode := fun _ => some "verified"
    userById := fun uid => if uid = 7 then some "alice@x.com" else none
    validEmailToLink := fun _ => true
    linkUserOk := fun _ => true
    classify := fun _ => ⟨EnrollOutcomeKind.success, true, none⟩ }

/-- An id-typed request for a resolvable user. -/
def infoAlice : EnrollmentInfo :=
  { userId := some 7, email := none, courseRunKey := "course-1", courseMode := none }

/-- Witness for C1: a concrete batch with zero failures, zero invalid
identities and zero pending answers 201. -/
theorem bulk_enroll_status_precedence_witness :
    (enrollLearnersInCourses bulkOracleAllOk [infoAlice]).status = 201 :=
  (bulk_enroll_status_precedence bulkOracleAllOk [infoAlice]).2.2
    (by decide) (by decide) (by decide) (by decide)

/-- Items classified by the collaborator all come from the submitted
requests. -/
theorem enrollClassify_foldl_mem (o : BulkOracles) :
    ∀ (infos : List EnrollmentInfo)
      (acc : List EnrollResultItem × List EnrollResultItem × List EnrollResultItem)
      (item : EnrollResultItem),
      (item ∈ (List.foldl (enrollClassifyStep o) acc infos).1 ∨
       item ∈ (List.foldl (enrollClassifyStep o) acc infos).2.1 ∨
       item ∈ (List.foldl (enrollClassifyStep o) acc infos).2.2) →
      (item ∈ acc.1 ∨ item ∈ acc.2.1 ∨ item ∈ acc.2.2) ∨ item.info ∈ infos := by
  intro infos
  induction infos with
  | nil =>
    intro acc item h
    simp only [List.foldl_nil] at h
    exact Or.inl h
  | cons i rest ih =>
    intro acc item h
    rw [List.foldl_cons] at h
    rcases ih (enrollClassifyStep o acc i) item h with hacc | hrest
    · rcases hcl : o.classify i with ⟨kind, created, link⟩
      simp only [enrollClassifyStep, hcl] at hacc
      have hitem : item.info = i → item.info ∈ i :: rest := by
        intro he
        rw [he]
        exact List.mem_cons_self _ _
      cases kind with
      | success =>
        rcases hacc with h1 | h2 | h3
        · rcases List.mem_append.mp h1 with h1a | h1b
          · exact Or.inl (Or.inl h1a)
          · have heq : item = ⟨i, created, link⟩ := by simpa using h1b
            exact Or.inr (hitem (by rw [heq]))
        · exact Or.inl (Or.inr (Or.inl h2))
        · exact Or.inl (Or.inr (Or.inr h3))
      | pending =>
        rcases hacc with h1 | h2 | h3
        · exact Or.inl (Or.inl h1)
        · rcases List.mem_append.mp h2 with h2a | h2b
          · exact Or.inl (Or.inr (Or.inl h2a))
          · have heq : item = ⟨i, created, link⟩ := by simpa using h2b
            exact Or.inr (hitem (by rw [heq]))
        · exact Or.inl (Or.inr (Or.inr h3))
      | failure =>
        rcases hacc with h1 | h2 | h3
        · exact Or.inl (Or.inl h1)
        · exact Or.inl (Or.inr (Or.inl h2))
        · rcases List.mem_append.mp h3 with h3a | h3b
          · exact Or.inl (Or.inr (Or.inr h3a))
          · have heq : item = ⟨i, created, link⟩ := by simpa using h3b
            exact Or.inr (hitem (by rw [heq]))
    · exact Or.inr (List.mem_cons_of_mem _ hrest)

/-- A bucket item of the subsidized-enrollment call over the kept requests
survived the removal filter. -/
theorem bucket_item_kept (o : BulkOracles) (acc : ResolveAcc) (item : EnrollResultItem)
    (h : item ∈ (enrollSubsidyUsersInCourses o (keptRequests o acc)).1 ∨
         item ∈ (enrollSubsidyUsersInCourses o (keptRequests o acc)).2.1 ∨
         item ∈ (enrollSubsidyUsersInCourses o (keptRequests o acc)).2.2) :
    keepRequest acc.userIdErrors (bulkEmailErrors o acc) item.info = true := by
  have hmem := enrollClassify_foldl_mem o (keptRequests o acc) ([], [], []) item h
  rcases hmem with habs | hk
  · rcases habs with h1 | h2 | h3
    · simp at h1
    · simp at h2
    · simp at h3
  · exact (List.mem_filter.mp hk).2

/-- Unpacking the removal filter: a surviving request's email is outside the
email-error bucket and its user id outside the invalid-id bucket. -/
theorem keepRequest_spec {ue : List Nat} {ee : List String} {i : EnrollmentInfo}
    (h : keepRequest ue ee i = true) :
    (∀ e, i.email = some e → e ∉ ee) ∧ (∀ uid, i.userId = some uid → uid ∉ ue) := by
  unfold keepRequest at h
  constructor
  · intro e he hmem
    rw [he] at h
    simp [hmem] at h
  · intro uid hu hmem
    rw [hu] at h
    simp [hmem] at h

/-- A nonempty list is reported as-is by the conditional field assignment. -/
theorem ite_some_of_ne_nil {α : Type} {l : List α} (h : l ≠ []) :
    (if !l.isEmpty then some l else none) = some l := by
  cases l with
  | nil => exact absurd rfl h
  | cons a t => rfl

/-! ### Claim C7 -/

/-- C7: an invalid identity never reaches the returned successes or pending
lists: every such item's email avoids the final email-error bucket and its
user id avoids the invalid-id bucket (error-bucketed requests are removed
before the subsidized-enrollment collaborator runs); nonempty error buckets
are reported in the invalid_user_ids / invalid_email_addresses fields; and
any invalid identity forces the 409 conflict status even when other items
succeeded. -/
theorem invalid_identities_excluded (o : BulkOracles) (infos : List EnrollmentInfo) :
    (∀ item, (item ∈ (enrollLearnersInCourses o infos).successes ∨
              item ∈ (enrollLearnersInCourses o infos).pending) →
      (∀ e, item.info.email = some e →
        e ∉ (enrollLearnersInCourses o infos).emailErrors) ∧
      (∀ uid, item.info.userId = some uid →
        uid ∉ (enrollLearnersInCourses o infos).userIdErrors)) ∧
    ((enrollLearnersInCourses o infos).userIdErrors ≠ [] →
      (enrollLearnersInCourses o infos).invalidUserIds =
        some (enrollLearnersInCourses o infos).userIdErrors) ∧
    ((enrollLearnersInCourses o infos).emailErrors ≠ [] →
      (enrollLearnersInCourses o infos).invalidEmailAddresses =
        some (enrollLearnersInCourses o infos).emailErrors) ∧
    (((enrollLearnersInCourses o infos).userIdErrors ≠ [] ∨
      (enrollLearnersInCourses o infos).emailErrors ≠ []) →
      (enrollLearnersInCourses o infos).status = 409) := by
  refine ⟨?_, ?_, ?_, ?_⟩
  · intro item hmem
    have hkeep : keepRequest (resolveEnrollments o infos).userIdErrors
        (bulkEmailErrors o (resolveEnrollments o infos)) item.info = true := by
      apply bucket_item_kept o (resolveEnrollments o infos) item
      rcases hmem with h1 | h2
      · exact Or.inl h1
      · exact Or.inr (Or.inl h2)
    exact keepRequest_spec hkeep
  · intro hne
    exact ite_some_of_ne_nil hne
  · intro hne
    exact ite_some_of_ne_nil hne
  · intro hne
    have hs : (enrollLearnersInCourses o infos).status =
        bulkStatus (enrollLearnersInCourses o infos).failures
          (enrollLearnersInCourses o infos).pending
          (enrollLearnersInCourses o infos).userIdErrors
          (enrollLearnersInCourses o infos).emailErrors := rfl
    have h := bulkStatus_cases (enrollLearnersInCourses o infos).failures
      (enrollLearnersInCourses o infos).pending
      (enrollLearnersInCourses o infos).userIdErrors
      (enrollLearnersInCourses o infos).emailErrors
    rcases hne with hU | hE
    · exact hs.trans (h.1 (Or.inr (Or.inl hU)))
    · exact hs.trans (h.1 (Or.inr (Or.inr hE)))

/-- Oracles with one email rejected by the allowed-domain validation. -/
def bulkOracleBad : BulkOracles :=
  { bestMode := fun _ => some "verified"
    userById := fun uid => if uid = 7 then some "alice@x.com" else none
    validEmailToLink := fun e => e != "bad@x"
    linkUserOk := fun _ => true
    classify := fun _ => ⟨EnrollOutcomeKind.success, true, none⟩ }

/-- An email-typed request with an invalid email. -/
def infoBad : EnrollmentInfo :=
  { userId := none, email := some "bad@x", courseRunKey := "course-1", courseMode := none }

/-- Witness for C7: at a concrete batch with one valid id-typed request and
one invalid email, the status is 409 even though the other item succeeded. -/
theorem invalid_identities_excluded_witness :
    (enrollLearnersInCourses bulkOracleBad [infoAlice, infoBad]).status = 409 :=
  (invalid_identities_excluded bulkOracleBad [infoAlice, infoBad]).2.2.2
    (Or.inr (by decide))

/-! ### Claim C8 -/

/-- Counterexample to C8 as stated: the linking loop iterates over every
distinct email of the batch, so `link_user` is invoked even for an email
already recorded in the email-error bucket by the validation loop.  With
the single invalid email "bad@x", the email sits in the validation error
bucket and nonetheless appears in the link-call list. -/
theorem link_user_called_for_invalid_email_counterexample :
    "bad@x" ∈ (enrollLearnersInCourses bulkOracleBad [infoBad]).validationEmailErrors ∧
    "bad@x" ∈ (enrollLearnersInCourses bulkOracleBad [infoBad]).linkCalls := by
  decide

/-- C8 (amended): an email failing the allowed-domain validation is recorded
as an invalid-email error and its requests are excluded from the
subsidized-enrollment call (it appears in no result bucket); however, the
linking step is invoked for every distinct email of the batch — the
link-call list is exactly the resolved email set — including emails already
recorded in the email-error bucket. -/
theorem invalid_email_recorded_but_still_linked (o : BulkOracles)
    (infos : List EnrollmentInfo) :
    (∀ e, e ∈ (resolveEnrollments o infos).emails → o.validEmailToLink e = false →
      e ∈ (enrollLearnersInCourses o infos).validationEmailErrors ∧
      e ∈ (enrollLearnersInCourses o infos).emailErrors ∧
      (∀ item, (item ∈ (enrollLearnersInCourses o infos).successes ∨
                item ∈ (enrollLearnersInCourses o infos).pending ∨
                item ∈ (enrollLearnersInCourses o infos).failures) →
        item.info.email ≠ some e)) ∧
    (enrollLearnersInCourses o infos).linkCalls = (resolveEnrollments o infos).emails := by
  constructor
  · intro e hmem hinvalid
    have hval : e ∈ bulkValidationErrors o (resolveEnrollments o infos) :=
      List.mem_filter.mpr ⟨hmem, by simp [hinvalid]⟩
    refine ⟨hval, List.mem_append.mpr (Or.inl hval), ?_⟩
    intro item hb he
    have hkeep := bucket_item_kept o (resolveEnrollments o infos) item hb
    have hspec := keepRequest_spec hkeep
    exact hspec.1 e he (List.mem_append.mpr (Or.inl hval))
  · rfl

/-- Witness for C8 (amended): the concrete invalid email is recorded in
both buckets while the link-call list equals the full email set. -/
theorem invalid_email_recorded_but_still_linked_witness :
    "bad@x" ∈ (enrollLearnersInCourses bulkOracleBad [infoBad]).validationEmailErrors ∧
    "bad@x" ∈ (enrollLearnersInCourses bulkOracleBad [infoBad]).emailErrors ∧
    (enrollLearnersInCourses bulkOracleBad [infoBad]).linkCalls =
      (resolveEnrollments bulkOracleBad [infoBad]).emails :=
  ⟨((invalid_email_recorded_but_still_linked bulkOracleBad [infoBad]).1 "bad@x"
      (by decide) (by decide)).1,
   ((invalid_email_recorded_but_still_linked bulkOracleBad [infoBad]).1 "bad@x"
      (by decide) (by decide)).2.1,
   (invalid_email_recorded_but_still_linked bulkOracleBad [infoBad]).2⟩

/-! ### Report types (`EnterpriseCustomerReportTypesView`) -/

/-- The ascending order on data-type pairs used by
`progress_data_types.sort(key=lambda data_type: data_type[1])`. -/
def dataTypeOrder (a b : String × String) : Prop :=
  a.2 ≤ b.2

instance : DecidableRel dataTypeOrder :=
  fun a b => inferInstanceAs (Decidable (a.2 ≤ b.2))

instance : IsTotal (String × String) dataTypeOrder :=
  ⟨fun a b => le_total a.2 b.2⟩

instance : IsTrans (String × String) dataTypeOrder :=
  ⟨fun _ _ _ hab hbc => le_trans hab hbc⟩

/-- `EnterpriseCustomerReportTypesView._get_data_types_with_recent_progress_type`:
sort the progress-coded pairs ascending by their second component, keep the
non-progress pairs, and append one pair made of the last (greatest) progress
code and the literal label "progress".  The `[-1]` indexing has no value on
an input without progress-coded pairs (`none`). -/
def getDataTypesWithRecentProgressType (dataTypes : List (String × String)) :
    Option (List (String × String)) :=
  let progressDataTypes := dataTypes.filter (fun d => d.2.startsWith "progress")
  let sortedProgress := List.insertionSort dataTypeOrder progressDataTypes
  let dataTypesForFrontend := dataTypes.filter (fun d => !d.2.startsWith "progress")
  match sortedProgress.getLast? with
  | none => none
  | some lastProgress => some (dataTypesForFrontend ++ [(lastProgress.2, "progress")])

/-- In a list sorted by `r`, the last element is `r`-above every element
(or equal to it). -/
theorem pairwise_getLast_max {α : Type} {r : α → α → Prop} :
    ∀ {l : List α}, List.Pairwise r l → ∀ {x : α}, l.getLast? = some x →
      ∀ y ∈ l, y = x ∨ r y x := by
  intro l
  induction l with
  | nil =>
    intro _ x hx
    simp at hx
  | cons a t ih =>
    intro hp x hx y hy
    rcases List.pairwise_cons.mp hp with ⟨ha, ht⟩
    cases t with
    | nil =>
      simp only [List.getLast?_singleton] at hx
      rcases List.mem_singleton.mp hy with rfl
      left
      simpa using hx
    | cons b t' =>
      rw [List.getLast?_cons_cons] at hx
      rcases List.mem_cons.mp hy with rfl | hy'
      · right
        have hxmem : x ∈ b :: t' := List.mem_of_mem_getLast? (by rw [hx]; rfl)
        exact ha x hxmem
      · exact ih ht hx y hy'

/-! ### Claim C10 -/

/-- C10: the report-type helper is total only under the precondition that
some input pair's code (second component) starts with "progress": then the
result keeps every non-progress pair in input order and appends exactly one
pair whose value (first component) is the lexicographically greatest
progress code and whose label (second component) is "progress"; with no
progress-coded pair the final-element indexing has no value. -/
theorem data_types_recent_progress (dataTypes : List (String × String)) :
    ((∃ d ∈ dataTypes, d.2.startsWith "progress" = true) →
      ∃ c, (∃ d ∈ dataTypes, d.2.startsWith "progress" = true ∧ d.2 = c) ∧
        (∀ d ∈ dataTypes, d.2.startsWith "progress" = true → d.2 ≤ c) ∧
        getDataTypesWithRecentProgressType dataTypes =
          some (dataTypes.filter (fun d => !d.2.startsWith "progress") ++
            [(c, "progress")])) ∧
    ((∀ d ∈ dataTypes, d.2.startsWith "progress" = false) →
      getDataTypesWithRecentProgressType dataTypes = none) := by
  constructor
  · rintro ⟨d0, hd0, hp0⟩
    have hmemf : d0 ∈ dataTypes.filter (fun d => d.2.startsWith "progress") :=
      List.mem_filter.mpr ⟨hd0, hp0⟩
    have hperm : List.Perm
        (List.insertionSort dataTypeOrder
          (dataTypes.filter (fun d => d.2.startsWith "progress")))
        (dataTypes.filter (fun d => d.2.startsWith "progress")) :=
      List.perm_insertionSort dataTypeOrder _
    cases hL : (List.insertionSort dataTypeOrder
        (dataTypes.filter (fun d => d.2.startsWith "progress"))).getLast? with
    | none =>
      rw [List.getLast?_eq_none_iff] at hL
      rw [hL] at hperm
      have := hperm.symm.mem_iff.mp hmemf
      simp at this
    | some last =>
      have hmemsort : last ∈ List.insertionSort dataTypeOrder
          (dataTypes.filter (fun d => d.2.startsWith "progress")) :=
        List.mem_of_mem_getLast? (by rw [hL]; rfl)
      have hmemfl := hperm.mem_iff.mp hmemsort
      rcases List.mem_filter.mp hmemfl with ⟨hlastin, hlastp⟩
      refine ⟨last.2, ⟨last, hlastin, hlastp, rfl⟩, ?_, ?_⟩
      · intro d hd hp
        have hdf : d ∈ dataTypes.filter (fun x => x.2.startsWith "progress") :=
          List.mem_filter.mpr ⟨hd, hp⟩
        have hds := hperm.mem_iff.mpr hdf
        have hsorted : List.Pairwise dataTypeOrder
            (List.insertionSort dataTypeOrder
              (dataTypes.filter (fun x => x.2.startsWith "progress"))) :=
          List.sorted_insertionSort dataTypeOrder _
        rcases pairwise_getLast_max hsorted hL d hds with rfl | hlt
        · exact le_refl _
        · exact hlt
      · simp only [getDataTypesWithRecentProgressType, hL]
  · intro hno
    have hnil : dataTypes.filter (fun d => d.2.startsWith "progress") = [] := by
      rw [List.filter_eq_nil_iff]
      intro d hd
      simp [hno d hd]
    simp [getDataTypesWithRecentProgressType, hnil]

/-- Witness for C10: at a concrete progress-free list, the helper has no
value. -/
theorem data_types_recent_progress_witness :
    getDataTypesWithRecentProgressType [("catalog", "catalog")] = none :=
  (data_types_recent_progress [("catalog", "catalog")]).2 (by decide)
